import Mathlib

/-!
Verification development for the `lanmon` repository.

The repository ships a Next.js frontend (API client, WebSocket hook, device
card/modal components, formatting utilities) together with a specification of
the backend discovery-and-lifecycle engine.  The frontend functions below are
shallowly embedded from their TypeScript sources; components of the backend
engine that are not part of the shown sources are modelled from the
specification and say so in their doc comments.
-/

set_option autoImplicit false

namespace LanMon

/-! ## JSON values

`Json` models the values produced by the JavaScript built-in `JSON.parse`,
with numbers restricted to integers (the port lists and messages handled by
the frontend only carry integers; inputs using fractional or exponent number
syntax are classified as parse failures by this fragment, exactly like any
other input outside the fragment). -/

inductive Json where
  | null : Json
  | bool (b : Bool) : Json
  | num (n : Int) : Json
  | str (s : String) : Json
  | arr (xs : List Json) : Json
  | obj (fields : List (String × Json)) : Json

/-- The opening curly brace character (written via its code point). -/
def lbrace : Char := Char.ofNat 123

/-- The closing curly brace character (written via its code point). -/
def rbrace : Char := Char.ofNat 125

/-- JSON insignificant whitespace. -/
def isWs (c : Char) : Bool :=
  c = ' ' || c = '\t' || c = '\n' || c = '\r'

/-- Drop leading JSON whitespace. -/
def skipWs : List Char → List Char
  | [] => []
  | c :: cs => if isWs c then skipWs cs else c :: cs

/-- Consume an expected literal character sequence. -/
def expectChars : List Char → List Char → Option (List Char)
  | [], cs => some cs
  | _ :: _, [] => none
  | p :: ps, c :: cs => if c = p then expectChars ps cs else none

/-- Split a maximal run of decimal digits off the front. -/
def takeDigits : List Char → (List Char × List Char)
  | [] => ([], [])
  | c :: cs =>
    if c.isDigit then
      let (ds, rest) := takeDigits cs
      (c :: ds, rest)
    else ([], c :: cs)

/-- Numeric value of a digit run. -/
def digitsToNat (ds : List Char) : Nat :=
  ds.foldl (fun acc c => acc * 10 + (c.toNat - 48)) 0

/-- Parse a JSON integer (optional minus sign, digit run). -/
def parseNumber (cs : List Char) : Option (Int × List Char) :=
  match cs with
  | '-' :: rest =>
    match takeDigits rest with
    | ([], _) => none
    | (ds, r1) => some (-(digitsToNat ds : Int), r1)
  | _ =>
    match takeDigits cs with
    | ([], _) => none
    | (ds, r1) => some ((digitsToNat ds : Int), r1)

/-- Parse the body of a JSON string after the opening quote (escape
sequences are outside the fragment and classified as parse failures). -/
def parseStringBody : List Char → Option (List Char × List Char)
  | [] => none
  | c :: cs =>
    if c = '"' then some ([], cs)
    else if c = '\\' then none
    else (parseStringBody cs).map (fun p => (c :: p.1, p.2))

mutual

/-- Parse one JSON value.  The `fuel` argument only bounds recursion depth:
every two nested calls consume at least one input character, so the top-level
entry point `jsonParse` supplies `2 * length + 2` fuel, which never runs out. -/
def parseValue : Nat → List Char → Option (Json × List Char)
  | 0, _ => none
  | fuel + 1, cs =>
    match skipWs cs with
    | [] => none
    | c :: rest =>
      if c = 'n' then
        (expectChars ['u', 'l', 'l'] rest).map (fun r => (Json.null, r))
      else if c = 't' then
        (expectChars ['r', 'u', 'e'] rest).map (fun r => (Json.bool true, r))
      else if c = 'f' then
        (expectChars ['a', 'l', 's', 'e'] rest).map (fun r => (Json.bool false, r))
      else if c = '"' then
        (parseStringBody rest).map (fun p => (Json.str ⟨p.1⟩, p.2))
      else if c = '[' then
        match skipWs rest with
        | ']' :: r1 => some (Json.arr [], r1)
        | _ => (parseElems fuel rest).map (fun p => (Json.arr p.1, p.2))
      else if c = lbrace then
        match skipWs rest with
        | d :: r1 =>
          if d = rbrace then some (Json.obj [], r1)
          else (parseMembers fuel rest).map (fun p => (Json.obj p.1, p.2))
        | [] => none
      else if c = '-' || c.isDigit then
        (parseNumber (c :: rest)).map (fun p => (Json.num p.1, p.2))
      else none

/-- Parse a non-empty comma-separated list of array elements up to and
including the closing bracket. -/
def parseElems : Nat → List Char → Option (List Json × List Char)
  | 0, _ => none
  | fuel + 1, cs => do
    let (v, r1) ← parseValue fuel cs
    match skipWs r1 with
    | ']' :: r2 => some ([v], r2)
    | ',' :: r2 => (parseElems fuel r2).map (fun p => (v :: p.1, p.2))
    | _ => none

/-- Parse a non-empty comma-separated list of object members up to and
including the closing brace. -/
def parseMembers : Nat → List Char → Option (List (String × Json) × List Char)
  | 0, _ => none
  | fuel + 1, cs =>
    match skipWs cs with
    | '"' :: r1 => do
      let (k, r2) ← parseStringBody r1
      match skipWs r2 with
      | ':' :: r3 => do
        let (v, r4) ← parseValue fuel r3
        match skipWs r4 with
        | d :: r5 =>
          if d = rbrace then some ([(⟨k⟩, v)], r5)
          else if d = ',' then
            (parseMembers fuel r5).map (fun p => ((⟨k⟩, v) :: p.1, p.2))
          else none
        | [] => none
      | _ => none
    | _ => none

end

/-- Model of the JavaScript built-in `JSON.parse` on the fragment described
at `Json`: `some v` when the whole input parses as the value `v`, `none` when
`JSON.parse` throws. -/
def jsonParse (s : String) : Option Json :=
  match parseValue (2 * s.length + 2) s.data with
  | some (v, rest) => if skipWs rest = [] then some v else none
  | none => none

/-! ## The two `parseOpenPorts` implementations -/

/-- Numeric key used by the sort comparator `(a, b) => a - b`; the port
arrays this data takes hold numbers, on which the comparator orders
ascending (non-numbers compare as `0`, matching the comparator returning
`NaN`, which the engine treats as `0`). -/
def portVal : Json → Int
  | Json.num n => n
  | _ => 0

/-- Stable insertion step for `sortPorts`. -/
def insertByVal (x : Json) : List Json → List Json
  | [] => [x]
  | y :: ys => if portVal y < portVal x then y :: insertByVal x ys else x :: y :: ys

/-- Model of `Array.prototype.sort` with comparator `(a, b) => a - b`
(a stable ascending sort by numeric value). -/
def sortPorts (xs : List Json) : List Json :=
  xs.foldr insertByVal []

namespace DeviceCard

/-- `parseOpenPorts` from `frontend/src/components/DeviceCard.tsx`:
falsy input (null or the empty string) gives `[]`; otherwise the input is
`JSON.parse`d, an array result is returned as-is (no sorting), and any
parse error or non-array result gives `[]`. -/
def parseOpenPorts (openPorts : Option String) : List Json :=
  match openPorts with
  | none => []
  | some s =>
    if s = "" then []
    else
      match jsonParse s with
      | some (Json.arr xs) => xs
      | _ => []

end DeviceCard

namespace DeviceModal

/-- `parseOpenPorts` from the device modal component: identical to the
card's version except that an array result is sorted with
`.sort((a, b) => a - b)` before being returned. -/
def parseOpenPorts (openPorts : Option String) : List Json :=
  match openPorts with
  | none => []
  | some s =>
    if s = "" then []
    else
      match jsonParse s with
      | some (Json.arr xs) => sortPorts xs
      | _ => []

end DeviceModal

/-! ## MAC address formatting (`frontend/src/lib/utils.ts`) -/

/-- Uppercase one character: models `String.prototype.toUpperCase` on the
ASCII range, the alphabet of MAC address strings (hex digits, colons).
Mirrors the basic-latin case mapping: codepoints 97–122 shift down by 32. -/
def upperChar (c : Char) : Char :=
  if 97 ≤ c.toNat ∧ c.toNat ≤ 122 then Char.ofNat (c.toNat - 32) else c

/-- `formatMacAddress` from `frontend/src/lib/utils.ts`: `mac.toUpperCase()`. -/
def formatMacAddress (mac : String) : String :=
  ⟨mac.data.map upperChar⟩

theorem toNat_ofNat_valid {n : Nat} (h : n < 55296) : (Char.ofNat n).toNat = n := by
  have hv : n.isValidChar := Or.inl h
  simp [Char.ofNat, dif_pos hv, Char.ofNatAux, Char.toNat, UInt32.toNat]

theorem upperChar_idem (c : Char) : upperChar (upperChar c) = upperChar c := by
  unfold upperChar
  by_cases h : 97 ≤ c.toNat ∧ c.toNat ≤ 122
  · rw [if_pos h]
    have ht : (Char.ofNat (c.toNat - 32)).toNat = c.toNat - 32 :=
      toNat_ofNat_valid (by omega)
    rw [if_neg]
    rw [ht]
    omega
  · rw [if_neg h, if_neg h]

/-! ## WebSocket subscriber hook (`frontend/src/lib/useWebSocket.ts`) -/

namespace UseWebSocket

/-- The two pieces of hook state touched by the `ws.onmessage` handler. -/
structure HookState where
  isConnected : Bool
  lastMessage : Option Json

/-- The `ws.onmessage` handler of `useWebSocket`: `JSON.parse` the frame
payload inside a `try`; on success store the parsed value via
`setLastMessage`; the `catch` branch only logs, leaving all state as-is.
No runtime shape validation is performed on the parsed value. -/
def onmessage (st : HookState) (payload : String) : HookState :=
  match jsonParse payload with
  | some m => { st with lastMessage := some m }
  | none => st

end UseWebSocket

/-! ## Interface shapes (`frontend/src/types/index.ts`, `frontend/src/lib/api.ts`) -/

/-- `ScanSession.status` union type from `frontend/src/types/index.ts`. -/
inductive SessionStatus where
  | running : SessionStatus
  | completed : SessionStatus
  | failed : SessionStatus
  deriving DecidableEq

/-- The `ScanSession` interface from `frontend/src/types/index.ts`. -/
structure ScanSession where
  id : Int
  started_at : String
  completed_at : Option String
  status : SessionStatus
  devices_found : Int
  devices_online : Int
  devices_new : Int
  subnet : Option String
  scan_method : Option String
  error_message : Option String

/-- The declared response type of `ApiClient.triggerScan` in
`frontend/src/lib/api.ts` (`POST /api/scan/trigger`). -/
structure TriggerScanResponse where
  success : Bool
  message : String
  devices_found : Option Int
  devices_online : Option Int
  devices_new : Option Int

/-- Field names of the `ScanSession` interface, in declaration order. -/
def scanSessionFields : List String :=
  ["id", "started_at", "completed_at", "status", "devices_found",
   "devices_online", "devices_new", "subnet", "scan_method", "error_message"]

/-- Field names of the declared `ApiClient.triggerScan` response type,
in declaration order. -/
def triggerScanResponseFields : List String :=
  ["success", "message", "devices_found", "devices_online", "devices_new"]

/-! ## Discovery-and-lifecycle engine

The backend engine (probe strategies, orchestrator, reconciler, publisher)
is not among the shown sources; its definitions below are modelled from the
specification, as their doc comments state. -/

/-- Modelled from the spec: the backend `Observation` record (§3) — the
scanning code producing it is not among the shown sources.
`{link_address, network_address, response_time_ms?, source_strategy}`;
`link_address` is optional so that a malformed observation (missing link
address, §4.3) is representable.  `hostname` stands in for the opportunistic
descriptive attributes a strategy may supply. -/
structure Observation where
  link_address : Option String
  network_address : Option String
  hostname : Option String
  response_time_ms : Option Int
  source_strategy : String
  deriving DecidableEq

/-- A validated observation: an `Observation` whose `link_address` is
present (malformed ones are dropped by the reconciler, §4.3). -/
structure CleanObs where
  link : String
  network : Option String
  hostname : Option String
  response_time_ms : Option Int
  strategy : String
  deriving DecidableEq

/-- Modelled from the spec: the backend `Device` record (§3), restricted to
the fields the Reconciler owns (identity, addresses, online state,
timestamps, plus `is_known` which the Reconciler initialises). -/
structure Device where
  link_address : String
  network_address : Option String
  hostname : Option String
  is_online : Bool
  is_known : Bool
  first_seen : Nat
  last_seen : Nat
  deriving DecidableEq

/-- Lifecycle event kinds (§3): `event_type ∈ {connected, disconnected,
ip_changed}`. -/
inductive EventType where
  | connected : EventType
  | disconnected : EventType
  | ip_changed : EventType
  deriving DecidableEq

/-- Modelled from the spec: the backend `ScanEvent` record (§3) — the
reconciler code producing it is not among the shown sources. -/
structure ScanEvent where
  device_link_address : String
  event_type : EventType
  network_address : Option String
  old_network_address : Option String
  timestamp : Nat
  response_time_ms : Option Int
  scan_method : String
  deriving DecidableEq

/-- Drop a malformed observation (missing `link_address`, §4.3), keep the
rest. -/
def validateObs (o : Observation) : Option CleanObs :=
  match o.link_address with
  | some l => some ⟨l, o.network_address, o.hostname, o.response_time_ms, o.source_strategy⟩
  | none => none

/-- Validated observations of a scan, in iteration order. -/
def cleanObs (obs : List Observation) : List CleanObs :=
  obs.filterMap validateObs

/-- Tie-break between two observations of the same `link_address` (§4.3):
the higher-precedence strategy (smaller rank under `prec`) wins; on equal
precedence the first-seen-in-iteration observation (`a`) is kept. -/
def betterObs (prec : String → Nat) (a b : CleanObs) : CleanObs :=
  if prec b.strategy < prec a.strategy then b else a

/-- Fold one observation into an accumulator keyed by `link`: combine with
the existing entry for the same link via the tie-break, else append. -/
def mergeObs (prec : String → Nat) (o : CleanObs) : List CleanObs → List CleanObs
  | [] => [o]
  | x :: xs => if x.link = o.link then betterObs prec x o :: xs else x :: mergeObs prec o xs

/-- Collapse a scan's observations to one per `link_address`, applying the
tie-break rule (§4.3); first-seen iteration order is preserved. -/
def dedupObs (prec : String → Nat) (os : List CleanObs) : List CleanObs :=
  os.foldl (fun acc o => mergeObs prec o acc) []

/-- Reconciler update of a matched device (§4.3): `last_seen := now`
unconditionally, `is_online := true`, `network_address` takes the last
observed value, descriptive fields follow last-non-null-wins. -/
def updateDevice (d : Device) (o : CleanObs) (now : Nat) : Device :=
  { d with
    network_address :=
      match o.network with
      | some b => some b
      | none => d.network_address
    hostname :=
      match o.hostname with
      | some h => some h
      | none => d.hostname
    is_online := true
    last_seen := now }

/-- Events for a matched device (§4.3): an `ip_changed` event when the
stored and observed network addresses are both non-null and differ, and a
`connected` event when the device was previously offline. -/
def matchEvents (d : Device) (o : CleanObs) (now : Nat) : List ScanEvent :=
  (match d.network_address, o.network with
   | some a, some b =>
     if a ≠ b then
       [⟨d.link_address, EventType.ip_changed, o.network, d.network_address, now,
         o.response_time_ms, o.strategy⟩]
     else []
   | _, _ => []) ++
  (if d.is_online then []
   else [⟨d.link_address, EventType.connected, o.network, none, now,
          o.response_time_ms, o.strategy⟩])

/-- A device created for a first-time observation (§4.3):
`first_seen = last_seen = now`, `is_online = true`, `is_known = false`. -/
def newDevice (o : CleanObs) (now : Nat) : Device :=
  ⟨o.link, o.network, o.hostname, true, false, now, now⟩

/-- The `connected` event emitted for a first-time observation (§4.3). -/
def newEvent (o : CleanObs) (now : Nat) : ScanEvent :=
  ⟨o.link, EventType.connected, o.network, none, now, o.response_time_ms, o.strategy⟩

/-- Look up the (unique, after `dedupObs`) observation for a link address. -/
def findObs (os : List CleanObs) (l : String) : Option CleanObs :=
  os.find? (fun o => o.link = l)

/-- Per-registry-device reconciliation step (§4.3): matched devices are
updated, unmatched online devices flip offline with a `disconnected` event
(stamped with the session's scan method), unmatched offline devices are
untouched. -/
def stepDevice (os : List CleanObs) (now : Nat) (method : String) (d : Device) :
    Device × List ScanEvent :=
  match findObs os d.link_address with
  | some o => (updateDevice d o now, matchEvents d o now)
  | none =>
    if d.is_online then
      ({ d with is_online := false },
       [⟨d.link_address, EventType.disconnected, d.network_address, none, now, none, method⟩])
    else (d, [])

/-- Result of `reconcile` (§4.3): the new registry, the derived events, and
the per-category counts. -/
structure ReconcileResult where
  registry : List Device
  events : List ScanEvent
  new_count : Nat
  online_count : Nat
  deriving DecidableEq

/-- Modelled from the spec: the Device Reconciler (§4.3) — its code is not
among the shown sources.  `reconcile(observations, now)`: validate and
dedup the observations, update every matched registry device, flip
unmatched online devices offline, create devices for first-time
observations, and recompute `online_count` as the total number of online
devices after reconciliation. -/
def reconcile (prec : String → Nat) (method : String) (registry : List Device)
    (observations : List Observation) (now : Nat) : ReconcileResult :=
  let os := dedupObs prec (cleanObs observations)
  let stepped := registry.map (stepDevice os now method)
  let fresh := os.filter (fun o => ¬ registry.any (fun d => d.link_address = o.link))
  let registry2 := stepped.map Prod.fst ++ fresh.map (fun o => newDevice o now)
  { registry := registry2
    events := (stepped.map Prod.snd).flatten ++ fresh.map (fun o => newEvent o now)
    new_count := fresh.length
    online_count := registry2.countP (fun d => d.is_online) }

example :
    (reconcile (fun _ => 0) "scapy" []
      [⟨some "AA:01", some "192.168.1.10", none, none, "scapy"⟩] 0).events =
    [⟨"AA:01", EventType.connected, some "192.168.1.10", none, 0, none, "scapy"⟩] := rfl

/-! ### Properties of observation dedup -/

theorem betterObs_eq_or (prec : String → Nat) (a b : CleanObs) :
    betterObs prec a b = a ∨ betterObs prec a b = b := by
  unfold betterObs
  by_cases h : prec b.strategy < prec a.strategy
  · rw [if_pos h]; exact Or.inr rfl
  · rw [if_neg h]; exact Or.inl rfl

theorem mem_mergeObs {prec : String → Nat} {o x : CleanObs} {acc : List CleanObs}
    (h : x ∈ mergeObs prec o acc) : x ∈ acc ∨ x = o := by
  induction acc with
  | nil => simpa [mergeObs] using h
  | cons y ys ih =>
    unfold mergeObs at h
    by_cases hy : y.link = o.link
    · rw [if_pos hy] at h
      rcases List.mem_cons.mp h with h1 | h1
      · rcases betterObs_eq_or prec y o with hb | hb
        · exact Or.inl (by rw [h1, hb]; exact List.mem_cons_self y ys)
        · exact Or.inr (h1.trans hb)
      · exact Or.inl (List.mem_cons_of_mem y h1)
    · rw [if_neg hy] at h
      rcases List.mem_cons.mp h with h1 | h1
      · exact Or.inl (h1 ▸ List.mem_cons_self y ys)
      · rcases ih h1 with h2 | h2
        · exact Or.inl (List.mem_cons_of_mem y h2)
        · exact Or.inr h2

theorem keys_mergeObs (prec : String → Nat) (o : CleanObs) (acc : List CleanObs) :
    (mergeObs prec o acc).map CleanObs.link =
      (if o.link ∈ acc.map CleanObs.link then acc.map CleanObs.link
       else acc.map CleanObs.link ++ [o.link]) := by
  induction acc with
  | nil => simp [mergeObs]
  | cons y ys ih =>
    unfold mergeObs
    by_cases hy : y.link = o.link
    · rw [if_pos hy]
      have hb : (betterObs prec y o).link = y.link := by
        rcases betterObs_eq_or prec y o with h | h <;> rw [h]
        exact hy.symm
      simp [hb, hy]
    · rw [if_neg hy]
      have hne : ¬ o.link = y.link := fun h => hy h.symm
      by_cases hin : o.link ∈ ys.map CleanObs.link
      · have houter : o.link ∈ (y :: ys).map CleanObs.link := by
          simp only [List.map_cons, List.mem_cons]
          exact Or.inr hin
        rw [if_pos houter]
        simp only [List.map_cons, ih, if_pos hin]
      · have houter : o.link ∉ (y :: ys).map CleanObs.link := by
          simp only [List.map_cons, List.mem_cons]
          rintro (h | h)
          · exact hne h
          · exact hin h
        rw [if_neg houter]
        simp only [List.map_cons, ih, if_neg hin, List.cons_append]

theorem keys_nodup_mergeObs {prec : String → Nat} {o : CleanObs} {acc : List CleanObs}
    (h : (acc.map CleanObs.link).Nodup) :
    ((mergeObs prec o acc).map CleanObs.link).Nodup := by
  rw [keys_mergeObs]
  by_cases hin : o.link ∈ acc.map CleanObs.link
  · rwa [if_pos hin]
  · rw [if_neg hin]
    simp [List.nodup_append, h, hin]

theorem keys_nodup_dedupObs (prec : String → Nat) (os : List CleanObs) :
    ((dedupObs prec os).map CleanObs.link).Nodup := by
  suffices h : ∀ acc : List CleanObs, (acc.map CleanObs.link).Nodup →
      ((os.foldl (fun a o => mergeObs prec o a) acc).map CleanObs.link).Nodup from
    h [] (by simp)
  induction os with
  | nil => intro acc h; simpa using h
  | cons o os ih =>
    intro acc h
    exact ih (mergeObs prec o acc) (keys_nodup_mergeObs h)

theorem foldl_mergeObs_mem (prec : String → Nat) (x : CleanObs) :
    ∀ (os acc : List CleanObs),
      x ∈ os.foldl (fun a o => mergeObs prec o a) acc → x ∈ acc ∨ x ∈ os := by
  intro os
  induction os with
  | nil => intro acc h1; exact Or.inl h1
  | cons o os ih =>
    intro acc h1
    rcases ih (mergeObs prec o acc) h1 with h2 | h2
    · rcases mem_mergeObs h2 with h3 | h3
      · exact Or.inl h3
      · exact Or.inr (h3 ▸ List.mem_cons_self o os)
    · exact Or.inr (List.mem_cons_of_mem o h2)

theorem mem_dedupObs {prec : String → Nat} {os : List CleanObs} {x : CleanObs}
    (h : x ∈ dedupObs prec os) : x ∈ os := by
  rcases foldl_mergeObs_mem prec x os [] h with h1 | h1
  · cases h1
  · exact h1

theorem findObs_self {os : List CleanObs} (hnd : (os.map CleanObs.link).Nodup)
    {x : CleanObs} (hx : x ∈ os) : findObs os x.link = some x := by
  induction os with
  | nil => cases hx
  | cons y ys ih =>
    have hnd2 : y.link ∉ ys.map CleanObs.link ∧ (ys.map CleanObs.link).Nodup := by
      rw [List.map_cons, List.nodup_cons] at hnd
      exact hnd
    rcases List.mem_cons.mp hx with rfl | hmem
    · show List.find? (fun o => o.link = x.link) (x :: ys) = some x
      rw [List.find?_cons_of_pos _ (by simp)]
    · have hy : ¬ (y.link = x.link) := by
        intro he
        exact hnd2.1 (he ▸ List.mem_map_of_mem CleanObs.link hmem)
      show List.find? (fun o => o.link = x.link) (y :: ys) = some x
      rw [List.find?_cons_of_neg _ (by simpa using hy)]
      exact ih hnd2.2 hmem

/-! ### Per-device reconciliation lemmas -/

theorem updateDevice_link (d : Device) (o : CleanObs) (now : Nat) :
    (updateDevice d o now).link_address = d.link_address := rfl

theorem newDevice_link (o : CleanObs) (now : Nat) :
    (newDevice o now).link_address = o.link := rfl

theorem stepDevice_fst_link (os : List CleanObs) (now : Nat) (method : String) (d : Device) :
    (stepDevice os now method d).1.link_address = d.link_address := by
  unfold stepDevice
  cases findObs os d.link_address with
  | some o => rfl
  | none => cases hon : d.is_online <;> simp [hon]

theorem updateDevice_idem (d : Device) (o : CleanObs) (now : Nat) :
    updateDevice (updateDevice d o now) o now = updateDevice d o now := by
  unfold updateDevice
  cases hn : o.network <;> cases hh : o.hostname <;> simp [hn, hh]

theorem matchEvents_updateDevice (d : Device) (o : CleanObs) (now : Nat) :
    matchEvents (updateDevice d o now) o now = [] := by
  unfold matchEvents updateDevice
  cases hn : o.network <;> simp [hn]

theorem updateDevice_newDevice (o : CleanObs) (now : Nat) :
    updateDevice (newDevice o now) o now = newDevice o now := by
  unfold updateDevice newDevice
  cases hn : o.network <;> cases hh : o.hostname <;> simp [hn, hh]

theorem matchEvents_newDevice (o : CleanObs) (now : Nat) :
    matchEvents (newDevice o now) o now = [] := by
  unfold matchEvents newDevice
  cases hn : o.network <;> simp [hn]

/-- Unfolded form of the registry produced by `reconcile`. -/
theorem reconcile_registry_def (prec : String → Nat) (method : String) (R : List Device)
    (S : List Observation) (now : Nat) :
    (reconcile prec method R S now).registry =
      (R.map (stepDevice (dedupObs prec (cleanObs S)) now method)).map Prod.fst ++
        ((dedupObs prec (cleanObs S)).filter
          (fun o => ¬ R.any (fun d => d.link_address = o.link))).map
          (fun o => newDevice o now) := rfl

/-- Unfolded form of the events produced by `reconcile`. -/
theorem reconcile_events_def (prec : String → Nat) (method : String) (R : List Device)
    (S : List Observation) (now : Nat) :
    (reconcile prec method R S now).events =
      ((R.map (stepDevice (dedupObs prec (cleanObs S)) now method)).map Prod.snd).flatten ++
        ((dedupObs prec (cleanObs S)).filter
          (fun o => ¬ R.any (fun d => d.link_address = o.link))).map
          (fun o => newEvent o now) := rfl

theorem stepDevice_update_stable (os : List CleanObs) (now : Nat) (method : String)
    (d : Device) (o : CleanObs) (hfind : findObs os d.link_address = some o) :
    stepDevice os now method (updateDevice d o now) = (updateDevice d o now, []) := by
  unfold stepDevice
  rw [updateDevice_link, hfind]
  show (updateDevice (updateDevice d o now) o now,
    matchEvents (updateDevice d o now) o now) = _
  rw [updateDevice_idem, matchEvents_updateDevice]

theorem stepDevice_offline_stable (os : List CleanObs) (now : Nat) (method : String)
    (d : Device) (hfind : findObs os d.link_address = none) (hon : d.is_online = false) :
    stepDevice os now method d = (d, []) := by
  unfold stepDevice
  rw [hfind]
  show (if d.is_online = true then _ else (d, [])) = (d, [])
  rw [hon]
  simp

theorem stepDevice_new_stable (os : List CleanObs) (now : Nat) (method : String)
    (o : CleanObs) (hfind : findObs os o.link = some o) :
    stepDevice os now method (newDevice o now) = (newDevice o now, []) := by
  unfold stepDevice
  rw [newDevice_link, hfind]
  show (updateDevice (newDevice o now) o now, matchEvents (newDevice o now) o now) = _
  rw [updateDevice_newDevice, matchEvents_newDevice]

/-- After one reconciliation, every registry device is a fixed point of the
per-device step for the same observation set: the second step changes
nothing and emits nothing. -/
theorem stepDevice_stable (prec : String → Nat) (method : String) (R : List Device)
    (S : List Observation) (now : Nat) :
    ∀ d ∈ (reconcile prec method R S now).registry,
      stepDevice (dedupObs prec (cleanObs S)) now method d = (d, []) := by
  intro d hd
  have hnd := keys_nodup_dedupObs prec (cleanObs S)
  rw [reconcile_registry_def, List.mem_append] at hd
  rcases hd with hd | hd
  · rw [List.map_map, List.mem_map] at hd
    obtain ⟨d0, hd0, rfl⟩ := hd
    cases hfind : findObs (dedupObs prec (cleanObs S)) d0.link_address with
    | some o =>
      have h1 : stepDevice (dedupObs prec (cleanObs S)) now method d0 =
          (updateDevice d0 o now, matchEvents d0 o now) := by
        simp [stepDevice, hfind]
      show stepDevice (dedupObs prec (cleanObs S)) now method
          (stepDevice (dedupObs prec (cleanObs S)) now method d0).1 =
        ((stepDevice (dedupObs prec (cleanObs S)) now method d0).1, [])
      rw [h1]
      exact stepDevice_update_stable _ _ _ _ _ hfind
    | none =>
      cases hon : d0.is_online with
      | false =>
        have h1 : stepDevice (dedupObs prec (cleanObs S)) now method d0 = (d0, []) := by
          simp [stepDevice, hfind, hon]
        show stepDevice (dedupObs prec (cleanObs S)) now method
            (stepDevice (dedupObs prec (cleanObs S)) now method d0).1 =
          ((stepDevice (dedupObs prec (cleanObs S)) now method d0).1, [])
        rw [h1]
        exact stepDevice_offline_stable _ _ _ _ hfind hon
      | true =>
        have h1 : stepDevice (dedupObs prec (cleanObs S)) now method d0 =
            ({ d0 with is_online := false },
             [⟨d0.link_address, EventType.disconnected, d0.network_address, none, now,
               none, method⟩]) := by
          simp [stepDevice, hfind, hon]
        show stepDevice (dedupObs prec (cleanObs S)) now method
            (stepDevice (dedupObs prec (cleanObs S)) now method d0).1 =
          ((stepDevice (dedupObs prec (cleanObs S)) now method d0).1, [])
        rw [h1]
        exact stepDevice_offline_stable _ _ _ _ hfind rfl
  · rw [List.mem_map] at hd
    obtain ⟨o, hofresh, rfl⟩ := hd
    have ho_os : o ∈ dedupObs prec (cleanObs S) := (List.mem_filter.mp hofresh).1
    exact stepDevice_new_stable _ _ _ _ (findObs_self hnd ho_os)

/-- After one reconciliation, every deduped observation's link address is
present in the registry. -/
theorem reconcile_covers (prec : String → Nat) (method : String) (R : List Device)
    (S : List Observation) (now : Nat) :
    ∀ o ∈ dedupObs prec (cleanObs S),
      (reconcile prec method R S now).registry.any
        (fun d => d.link_address = o.link) = true := by
  intro o ho
  rw [List.any_eq_true]
  by_cases hR : R.any (fun d => d.link_address = o.link) = true
  · rw [List.any_eq_true] at hR
    obtain ⟨d0, hd0, hlink⟩ := hR
    refine ⟨(stepDevice (dedupObs prec (cleanObs S)) now method d0).1, ?_, ?_⟩
    · rw [reconcile_registry_def, List.mem_append]
      exact Or.inl (by
        rw [List.map_map, List.mem_map]
        exact ⟨d0, hd0, rfl⟩)
    · rw [stepDevice_fst_link]
      exact hlink
  · refine ⟨newDevice o now, ?_, ?_⟩
    · rw [reconcile_registry_def, List.mem_append]
      refine Or.inr ?_
      rw [List.mem_map]
      refine ⟨o, ?_, rfl⟩
      rw [List.mem_filter]
      exact ⟨ho, by simpa using hR⟩
    · simp [newDevice_link]

/-- The deduped observations all survive the freshness filter of a second
run over the updated registry: the second run creates no devices. -/
theorem reconcile_fresh_nil (prec : String → Nat) (method : String) (R : List Device)
    (S : List Observation) (now : Nat) :
    (dedupObs prec (cleanObs S)).filter
      (fun o => ¬ (reconcile prec method R S now).registry.any
        (fun d => d.link_address = o.link)) = [] := by
  rw [List.filter_eq_nil_iff]
  intro o ho
  have h := reconcile_covers prec method R S now o ho
  simp [h]

/-- C5: reconciliation is idempotent: running `reconcile` a second time on
the registry produced by a first run over the same observation set, with
the same `now` (no time passing), emits zero lifecycle events and leaves
every device record — in particular `is_online` and `last_seen` of
already-seen devices — exactly as the first run left it. -/
theorem reconcile_idempotent (prec : String → Nat) (method : String)
    (R : List Device) (S : List Observation) (now : Nat) :
    (reconcile prec method (reconcile prec method R S now).registry S now).events = [] ∧
    (reconcile prec method (reconcile prec method R S now).registry S now).registry =
      (reconcile prec method R S now).registry := by
  have hstable := stepDevice_stable prec method R S now
  have hfresh := reconcile_fresh_nil prec method R S now
  have hmap : (reconcile prec method R S now).registry.map
      (stepDevice (dedupObs prec (cleanObs S)) now method) =
      (reconcile prec method R S now).registry.map (fun d => (d, [])) :=
    List.map_congr_left hstable
  constructor
  · rw [reconcile_events_def, hfresh, hmap]
    simp
  · rw [reconcile_registry_def prec method (reconcile prec method R S now).registry,
      hfresh, hmap, List.map_map,
      show (Prod.fst ∘ fun d : Device => (d, ([] : List ScanEvent))) = id from rfl,
      List.map_id]
    simp

/-- Shape of the events emitted for a matched device: either an
`ip_changed` event with a non-null old address, or a `connected` event with
no old address. -/
theorem mem_matchEvents {d : Device} {o : CleanObs} {now : Nat} {e : ScanEvent}
    (he : e ∈ matchEvents d o now) :
    (e.event_type = EventType.ip_changed ∧ e.old_network_address ≠ none) ∨
    (e.event_type = EventType.connected ∧ e.old_network_address = none) := by
  unfold matchEvents at he
  rw [List.mem_append] at he
  rcases he with he | he
  · cases hn : d.network_address with
    | none => rw [hn] at he; cases he
    | some a =>
      cases ho : o.network with
      | none => rw [hn, ho] at he; cases he
      | some b =>
        simp only [hn, ho] at he
        by_cases hab : a = b
        · rw [if_neg (by simpa using hab)] at he
          cases he
        · rw [if_pos hab] at he
          rcases List.mem_cons.mp he with rfl | h1
          · exact Or.inl ⟨rfl, by simp⟩
          · cases h1
  · by_cases hon : d.is_online = true
    · rw [if_pos hon] at he
      cases he
    · rw [if_neg hon] at he
      rcases List.mem_cons.mp he with rfl | h1
      · exact Or.inr ⟨rfl, rfl⟩
      · cases h1

/-- C3: in every event emitted by reconciliation, the old network address
field is populated only for `ip_changed` events; `connected` and
`disconnected` events carry no old address. -/
theorem reconcile_old_address (prec : String → Nat) (method : String) (R : List Device)
    (S : List Observation) (now : Nat) (e : ScanEvent)
    (he : e ∈ (reconcile prec method R S now).events) :
    (e.event_type = EventType.connected ∨ e.event_type = EventType.disconnected →
      e.old_network_address = none) ∧
    (e.old_network_address ≠ none → e.event_type = EventType.ip_changed) := by
  rw [reconcile_events_def, List.mem_append] at he
  rcases he with he | he
  · rw [List.map_map, List.mem_flatten] at he
    obtain ⟨l, hl, hel⟩ := he
    rw [List.mem_map] at hl
    obtain ⟨d0, hd0, rfl⟩ := hl
    have hel2 : e ∈ (stepDevice (dedupObs prec (cleanObs S)) now method d0).2 := hel
    cases hfind : findObs (dedupObs prec (cleanObs S)) d0.link_address with
    | some o =>
      have hstep : (stepDevice (dedupObs prec (cleanObs S)) now method d0).2 =
          matchEvents d0 o now := by
        simp [stepDevice, hfind]
      rw [hstep] at hel2
      rcases mem_matchEvents hel2 with ⟨ht, hold⟩ | ⟨ht, hold⟩
      · refine ⟨?_, fun _ => ht⟩
        intro hc
        rcases hc with hc | hc <;> rw [ht] at hc <;> cases hc
      · exact ⟨fun _ => hold, fun hc => absurd hold hc⟩
    | none =>
      cases hon : d0.is_online with
      | true =>
        have hstep : (stepDevice (dedupObs prec (cleanObs S)) now method d0).2 =
            [⟨d0.link_address, EventType.disconnected, d0.network_address, none, now,
              none, method⟩] := by
          simp [stepDevice, hfind, hon]
        rw [hstep] at hel2
        rcases List.mem_cons.mp hel2 with rfl | h1
        · exact ⟨fun _ => rfl, fun hc => absurd rfl hc⟩
        · cases h1
      | false =>
        have hstep : (stepDevice (dedupObs prec (cleanObs S)) now method d0).2 = [] := by
          simp [stepDevice, hfind, hon]
        rw [hstep] at hel2
        cases hel2
  · rw [List.mem_map] at he
    obtain ⟨o, _, rfl⟩ := he
    exact ⟨fun _ => rfl, fun hc => absurd rfl hc⟩

/-! ## Probe strategies and the orchestrator's fallback chain
(modelled from the spec) -/

/-- Modelled from the spec: the outcome of one probe strategy invocation
(§4.1) — the backend scanner code is not among the shown sources.  A
strategy either hard-fails (cannot run at all) or succeeds with a set of
observations; an empty set is a success, not a failure. -/
inductive ProbeOutcome where
  | hardFail : ProbeOutcome
  | success (obs : List Observation) : ProbeOutcome
  deriving DecidableEq

/-- Modelled from the spec: a probe strategy (§4.1) with its identifier and
the outcome its `probe` call produces in the scanned environment. -/
structure Strategy where
  id : String
  outcome : ProbeOutcome
  deriving DecidableEq

/-- Run one strategy: on success every observation is tagged with the
strategy's own identifier (§4.1). -/
def runStrategy (s : Strategy) : Option (List Observation) :=
  match s.outcome with
  | ProbeOutcome.hardFail => none
  | ProbeOutcome.success obs =>
    some (obs.map (fun o => { o with source_strategy := s.id }))

/-- Modelled from the spec: the Orchestrator's strategy loop (§4.2 step 2)
— its code is not among the shown sources.  Strategies are tried in
precedence order; the loop stops at the first strategy that completes
without a hard failure (an empty-but-successful result also stops it) and
returns that strategy's identifier with its observations; `none` when all
strategies hard-fail. -/
def runChain : List Strategy → Option (String × List Observation)
  | [] => none
  | s :: rest =>
    match runStrategy s with
    | some obs => some (s.id, obs)
    | none => runChain rest

/-- Modelled from the spec: the lifecycle events of one scan session (§4.2
steps 2–3): the winning strategy's observations are reconciled with the
session's scan method set to that strategy's identifier. -/
def sessionEvents (prec : String → Nat) (R : List Device) (chain : List Strategy)
    (now : Nat) : List ScanEvent :=
  match runChain chain with
  | none => []
  | some (m, obs) => (reconcile prec m R obs now).events

theorem cleanObs_strategy {obs : List Observation} {m : String}
    (h : ∀ o ∈ obs, o.source_strategy = m) :
    ∀ c ∈ cleanObs obs, c.strategy = m := by
  intro c hc
  rw [cleanObs, List.mem_filterMap] at hc
  obtain ⟨o, ho, hval⟩ := hc
  unfold validateObs at hval
  cases hl : o.link_address with
  | none => rw [hl] at hval; cases hval
  | some l =>
    rw [hl] at hval
    cases hval
    exact h o ho

theorem matchEvents_method {d : Device} {o : CleanObs} {now : Nat} {e : ScanEvent}
    (he : e ∈ matchEvents d o now) : e.scan_method = o.strategy := by
  unfold matchEvents at he
  rw [List.mem_append] at he
  rcases he with he | he
  · cases hn : d.network_address with
    | none => rw [hn] at he; cases he
    | some a =>
      cases ho : o.network with
      | none => simp only [hn, ho] at he; cases he
      | some b =>
        simp only [hn, ho] at he
        by_cases hab : a = b
        · rw [if_neg (by simpa using hab)] at he
          cases he
        · rw [if_pos hab] at he
          rcases List.mem_cons.mp he with rfl | h1
          · rfl
          · cases h1
  · by_cases hon : d.is_online = true
    · rw [if_pos hon] at he
      cases he
    · rw [if_neg hon] at he
      rcases List.mem_cons.mp he with rfl | h1
      · rfl
      · cases h1

/-- Provenance: when every observation of a scan carries the scan method as
its source strategy, every event derived by reconciliation carries that
scan method. -/
theorem reconcile_events_method (prec : String → Nat) (m : String) (R : List Device)
    (obs : List Observation) (now : Nat)
    (h : ∀ o ∈ obs, o.source_strategy = m) :
    ∀ e ∈ (reconcile prec m R obs now).events, e.scan_method = m := by
  have htag : ∀ c ∈ dedupObs prec (cleanObs obs), c.strategy = m := fun c hc =>
    cleanObs_strategy h c (mem_dedupObs hc)
  intro e he
  rw [reconcile_events_def, List.mem_append] at he
  rcases he with he | he
  · rw [List.map_map, List.mem_flatten] at he
    obtain ⟨l, hl, hel⟩ := he
    rw [List.mem_map] at hl
    obtain ⟨d0, hd0, rfl⟩ := hl
    have hel2 : e ∈ (stepDevice (dedupObs prec (cleanObs obs)) now m d0).2 := hel
    cases hfind : findObs (dedupObs prec (cleanObs obs)) d0.link_address with
    | some o =>
      have hstep : (stepDevice (dedupObs prec (cleanObs obs)) now m d0).2 =
          matchEvents d0 o now := by
        simp [stepDevice, hfind]
      rw [hstep] at hel2
      have hfind2 : List.find? (fun x => x.link = d0.link_address)
          (dedupObs prec (cleanObs obs)) = some o := hfind
      rw [matchEvents_method hel2]
      exact htag o (List.mem_of_find?_eq_some hfind2)
    | none =>
      cases hon : d0.is_online with
      | true =>
        have hstep : (stepDevice (dedupObs prec (cleanObs obs)) now m d0).2 =
            [⟨d0.link_address, EventType.disconnected, d0.network_address, none, now,
              none, m⟩] := by
          simp [stepDevice, hfind, hon]
        rw [hstep] at hel2
        rcases List.mem_cons.mp hel2 with rfl | h1
        · rfl
        · cases h1
      | false =>
        have hstep : (stepDevice (dedupObs prec (cleanObs obs)) now m d0).2 = [] := by
          simp [stepDevice, hfind, hon]
        rw [hstep] at hel2
        cases hel2
  · rw [List.mem_map] at he
    obtain ⟨o, hofilter, rfl⟩ := he
    exact htag o (List.mem_filter.mp hofilter).1

/-- C6: strategies are tried in fixed precedence order with fallback only
on hard failure: an empty-but-successful result stops the chain; and when a
higher-precedence strategy hard-fails and the next one succeeds, the chain
returns the succeeding strategy's identifier and observations, and every
resulting event's `scan_method` is the succeeding strategy's identifier,
never the failed one's. -/
theorem strategy_fallback (prec : String → Nat) (A B : Strategy) (rest : List Strategy)
    (obs : List Observation) (R : List Device) (now : Nat)
    (hA : A.outcome = ProbeOutcome.hardFail)
    (hB : B.outcome = ProbeOutcome.success obs) :
    (∀ (S0 : Strategy) (chain : List Strategy), S0.outcome = ProbeOutcome.success [] →
      runChain (S0 :: chain) = some (S0.id, [])) ∧
    runChain (A :: B :: rest) =
      some (B.id, obs.map (fun o => { o with source_strategy := B.id })) ∧
    ∀ e ∈ sessionEvents prec R (A :: B :: rest) now,
      e.scan_method = B.id ∧ (A.id ≠ B.id → e.scan_method ≠ A.id) := by
  have hrun : runChain (A :: B :: rest) =
      some (B.id, obs.map (fun o => { o with source_strategy := B.id })) := by
    simp [runChain, runStrategy, hA, hB]
  refine ⟨?_, hrun, ?_⟩
  · intro S0 chain h0
    simp [runChain, runStrategy, h0]
  · intro e he
    unfold sessionEvents at he
    rw [hrun] at he
    have hm : e.scan_method = B.id :=
      reconcile_events_method prec B.id R
        (obs.map (fun o => { o with source_strategy := B.id })) now
        (by
          intro o ho
          obtain ⟨o0, _, rfl⟩ := List.mem_map.mp ho
          rfl)
        e he
    exact ⟨hm, fun hne hcontra => hne (hcontra.symm.trans hm)⟩

/-! ## Scan session lifecycle (modelled from the spec) -/

/-- Modelled from the spec: the Orchestrator creates the session record in
the `running` state (§4.2 step 1) — the orchestrator code is not among the
shown sources. -/
def createSession (id : Int) (startedAt : String) (subnet : Option String)
    (method : Option String) : ScanSession :=
  { id := id, started_at := startedAt, completed_at := none,
    status := SessionStatus.running, devices_found := 0, devices_online := 0,
    devices_new := 0, subnet := subnet, scan_method := method,
    error_message := none }

/-- Finalize a session as `completed` (§4.2 step 4), stamping
`completed_at` and the returned counts. -/
def completeSession (s : ScanSession) (t : String) (found online fresh : Int) :
    ScanSession :=
  { s with
    status := SessionStatus.completed
    completed_at := some t
    devices_found := found
    devices_online := online
    devices_new := fresh }

/-- Finalize a session as `failed` (§4.2 step 2) with an error message. -/
def failSession (s : ScanSession) (t msg : String) : ScanSession :=
  { s with
    status := SessionStatus.failed
    completed_at := some t
    error_message := some msg }

/-- Modelled from the spec: the only mutations ever applied to a
ScanSession record (§3, §4.2 step 4) — finalize a running session as
`completed` with its counts, or as `failed` with an error message; no
other transition exists. -/
inductive SessionStep : ScanSession → ScanSession → Prop where
  | complete (s : ScanSession) (t : String) (found online fresh : Int)
      (h : s.status = SessionStatus.running) :
      SessionStep s (completeSession s t found online fresh)
  | fail (s : ScanSession) (t msg : String) (h : s.status = SessionStatus.running) :
      SessionStep s (failSession s t msg)

/-- C7: every session status is one of `running`/`completed`/`failed`; a
session is created `running`; a transition is possible only from `running`
and lands in `completed` or `failed`; and after a transition no further
transition exists (the record is immutable). -/
theorem scanSession_lifecycle :
    (∀ s : ScanSession, s.status = SessionStatus.running ∨
      s.status = SessionStatus.completed ∨ s.status = SessionStatus.failed) ∧
    (∀ (id : Int) (t : String) (sub m : Option String),
      (createSession id t sub m).status = SessionStatus.running) ∧
    (∀ s s2 : ScanSession, SessionStep s s2 →
      s.status = SessionStatus.running ∧
      (s2.status = SessionStatus.completed ∨ s2.status = SessionStatus.failed)) ∧
    (∀ s s2 s3 : ScanSession, SessionStep s s2 → ¬ SessionStep s2 s3) := by
  refine ⟨?_, ?_, ?_, ?_⟩
  · intro s
    cases h : s.status
    · exact Or.inl rfl
    · exact Or.inr (Or.inl rfl)
    · exact Or.inr (Or.inr rfl)
  · intro id t sub m
    rfl
  · intro s s2 hstep
    cases hstep with
    | complete t found online fresh h => exact ⟨h, Or.inl rfl⟩
    | fail t msg h => exact ⟨h, Or.inr rfl⟩
  · intro s s2 s3 h12 h23
    cases h12 <;> cases h23 <;> simp_all [completeSession, failSession]

/-! ## Event publisher wire shape (modelled from the spec) -/

/-- The `WebSocketMessage` wire shape: a JSON object with exactly a string
`type` field and a map `data` field; embeds the `WebSocketMessage`
interface of `frontend/src/types/index.ts`. -/
structure WebSocketMessage where
  type : String
  data : List (String × Json)

/-- Modelled from the spec: the notification kinds the Event Publisher
emits (§4.4) — the publisher code is not among the shown sources. -/
inductive NotifyKind where
  | scan_started : NotifyKind
  | scan_completed : NotifyKind
  | scan_failed : NotifyKind
  | device_new : NotifyKind
  | device_connected : NotifyKind
  | device_disconnected : NotifyKind
  | ip_changed : NotifyKind
  deriving DecidableEq

/-- Wire `type` string of each notification kind (§4.4). -/
def notifyType : NotifyKind → String
  | NotifyKind.scan_started => "scan_started"
  | NotifyKind.scan_completed => "scan_completed"
  | NotifyKind.scan_failed => "scan_failed"
  | NotifyKind.device_new => "device_new"
  | NotifyKind.device_connected => "device_connected"
  | NotifyKind.device_disconnected => "device_disconnected"
  | NotifyKind.ip_changed => "ip_changed"

/-- Modelled from the spec: the Event Publisher's wire encoding (§4.4, §6)
— each published event becomes exactly one JSON message with a `type` and a
`data` field; no batching. -/
def publish (k : NotifyKind) (data : List (String × Json)) : List WebSocketMessage :=
  [{ type := notifyType k, data := data }]

/-- C2: every message delivered to a subscriber is a single JSON object
with exactly a string `type` field and a map `data` field — one message per
event, no batching — and `type` is one of the seven notification kinds. -/
theorem publish_message_shape (k : NotifyKind) (data : List (String × Json)) :
    publish k data = [{ type := notifyType k, data := data }] ∧
    notifyType k ∈ ["scan_started", "scan_completed", "scan_failed", "device_new",
      "device_connected", "device_disconnected", "ip_changed"] := by
  refine ⟨rfl, ?_⟩
  cases k <;> simp [notifyType]

example : DeviceCard.parseOpenPorts (some "[2,1]") = [Json.num 2, Json.num 1] := rfl
example : DeviceModal.parseOpenPorts (some "[2,1]") = [Json.num 1, Json.num 2] := rfl
example : jsonParse "7" = some (Json.num 7) := rfl
example : jsonParse "[" = none := rfl
example : jsonParse "" = none := rfl

/-! ## Claim theorems for the frontend functions -/

/-- C1 counterexample: the operation `ApiClient.triggerScan` exposed by the
API client does not return a `ScanSession` value — its declared response
type lacks `started_at` and `status` (among others) and its field list is
not the `ScanSession` field list. -/
theorem triggerScan_not_scanSession :
    triggerScanResponseFields ≠ scanSessionFields ∧
    "started_at" ∈ scanSessionFields ∧ "started_at" ∉ triggerScanResponseFields ∧
    "status" ∈ scanSessionFields ∧ "status" ∉ triggerScanResponseFields := by
  decide

/-- C1 amended: `triggerScan` returns a record with exactly a `success`
flag, a `message`, and optional `devices_found`/`devices_online`/
`devices_new` counts; of the `ScanSession` fields it carries only those
three counters. -/
theorem triggerScan_response_shape :
    triggerScanResponseFields =
      ["success", "message", "devices_found", "devices_online", "devices_new"] ∧
    triggerScanResponseFields.filter (fun f => f ∈ scanSessionFields) =
      ["devices_found", "devices_online", "devices_new"] := by
  decide

/-- C4 counterexample: the two `parseOpenPorts` implementations disagree on
the input `"[2,1]"` — the card keeps parse order `[2, 1]`, the modal sorts
to `[1, 2]`. -/
theorem parseOpenPorts_not_equal :
    ¬ (DeviceCard.parseOpenPorts (some "[2,1]") =
       DeviceModal.parseOpenPorts (some "[2,1]")) := by
  intro h
  have h1 : DeviceCard.parseOpenPorts (some "[2,1]") = [Json.num 2, Json.num 1] := rfl
  have h2 : DeviceModal.parseOpenPorts (some "[2,1]") = [Json.num 1, Json.num 2] := rfl
  rw [h1, h2] at h
  injection h with ha hb
  injection ha with hc
  exact absurd hc (by decide)

/-- C4 amended: the two implementations agree up to ordering — on every
input the modal's result is exactly the card's result sorted with the
numeric comparator; in particular they agree on every input whose parsed
array is already sorted. -/
theorem parseOpenPorts_sort_agreement (x : Option String) :
    DeviceModal.parseOpenPorts x = sortPorts (DeviceCard.parseOpenPorts x) := by
  cases x with
  | none => rfl
  | some s =>
    simp only [DeviceCard.parseOpenPorts, DeviceModal.parseOpenPorts]
    by_cases hs : s = ""
    · rw [if_pos hs, if_pos hs]
      rfl
    · rw [if_neg hs, if_neg hs]
      cases hp : jsonParse s with
      | none => rfl
      | some v => cases v <;> rfl

/-- C8: `formatMacAddress` returns the character-wise uppercase of its
argument (the embedding of `mac.toUpperCase()`), and it is idempotent:
applying it twice equals applying it once. -/
theorem formatMacAddress_uppercase (m : String) :
    (formatMacAddress m).data = m.data.map upperChar ∧
    formatMacAddress (formatMacAddress m) = formatMacAddress m := by
  refine ⟨rfl, ?_⟩
  have h : (m.data.map upperChar).map upperChar = m.data.map upperChar := by
    rw [List.map_map]
    exact List.map_congr_left (fun c _ => upperChar_idem c)
  show (⟨(m.data.map upperChar).map upperChar⟩ : String) = ⟨m.data.map upperChar⟩
  rw [h]

/-- C9: `parseOpenPorts` is total and never fails: a null input, a string
that does not parse as JSON, and JSON that is not an array all yield the
empty list (in both implementations), and an input parsing as a JSON array
yields a list — the card's as parsed, the modal's sorted. -/
theorem parseOpenPorts_total (s : String) :
    (DeviceCard.parseOpenPorts none = [] ∧ DeviceModal.parseOpenPorts none = []) ∧
    (jsonParse s = none →
      DeviceCard.parseOpenPorts (some s) = [] ∧
      DeviceModal.parseOpenPorts (some s) = []) ∧
    (∀ v, jsonParse s = some v → (∀ xs, v ≠ Json.arr xs) →
      DeviceCard.parseOpenPorts (some s) = [] ∧
      DeviceModal.parseOpenPorts (some s) = []) ∧
    (∀ xs, jsonParse s = some (Json.arr xs) →
      DeviceCard.parseOpenPorts (some s) = xs ∧
      DeviceModal.parseOpenPorts (some s) = sortPorts xs) := by
  refine ⟨⟨rfl, rfl⟩, ?_, ?_, ?_⟩
  · intro h
    simp only [DeviceCard.parseOpenPorts, DeviceModal.parseOpenPorts]
    by_cases hs : s = ""
    · rw [if_pos hs, if_pos hs]
      exact ⟨rfl, rfl⟩
    · rw [if_neg hs, if_neg hs, h]
      exact ⟨rfl, rfl⟩
  · intro v hv hnotarr
    simp only [DeviceCard.parseOpenPorts, DeviceModal.parseOpenPorts]
    by_cases hs : s = ""
    · subst hs
      rw [show jsonParse "" = none from rfl] at hv
      cases hv
    · rw [if_neg hs, if_neg hs, hv]
      cases v with
      | arr xs => exact absurd rfl (hnotarr xs)
      | null => exact ⟨rfl, rfl⟩
      | bool b => exact ⟨rfl, rfl⟩
      | num n => exact ⟨rfl, rfl⟩
      | str t => exact ⟨rfl, rfl⟩
      | obj fields => exact ⟨rfl, rfl⟩
  · intro xs hv
    simp only [DeviceCard.parseOpenPorts, DeviceModal.parseOpenPorts]
    by_cases hs : s = ""
    · subst hs
      rw [show jsonParse "" = none from rfl] at hv
      cases hv
    · rw [if_neg hs, if_neg hs, hv]
      exact ⟨rfl, rfl⟩

theorem parseOpenPorts_total_witness :
    DeviceCard.parseOpenPorts (some "7") = [] ∧
    DeviceModal.parseOpenPorts (some "[2,1]") = [Json.num 1, Json.num 2] :=
  ⟨((parseOpenPorts_total "7").2.2.1 (Json.num 7) rfl
      (fun _ h => Json.noConfusion h)).1,
   ((parseOpenPorts_total "[2,1]").2.2.2 [Json.num 2, Json.num 1] rfl).2.trans rfl⟩

/-- C10: the WebSocket hook's message handler updates `lastMessage` exactly
when the frame payload parses as JSON: a parsed payload is stored, a
payload that is not valid JSON raises no error and leaves the hook state —
in particular `isConnected` — unchanged. -/
theorem useWebSocket_onmessage_spec (st : UseWebSocket.HookState) (payload : String) :
    (jsonParse payload = none → UseWebSocket.onmessage st payload = st) ∧
    (∀ v, jsonParse payload = some v →
      UseWebSocket.onmessage st payload = { st with lastMessage := some v }) ∧
    (UseWebSocket.onmessage st payload).isConnected = st.isConnected := by
  refine ⟨?_, ?_, ?_⟩
  · intro h
    unfold UseWebSocket.onmessage
    rw [h]
  · intro v h
    unfold UseWebSocket.onmessage
    rw [h]
  · unfold UseWebSocket.onmessage
    cases jsonParse payload <;> rfl

theorem useWebSocket_onmessage_spec_witness :
    UseWebSocket.onmessage ⟨true, none⟩ "[" = ⟨true, none⟩ ∧
    UseWebSocket.onmessage ⟨true, none⟩ "7" = ⟨true, some (Json.num 7)⟩ :=
  ⟨(useWebSocket_onmessage_spec ⟨true, none⟩ "[").1 rfl,
   (useWebSocket_onmessage_spec ⟨true, none⟩ "7").2.1 (Json.num 7) rfl⟩

/-! ## Claim witnesses for the engine theorems -/

theorem reconcile_old_address_witness :
    ((⟨"AA:01", EventType.connected, some "192.168.1.10", none, 0, none,
        "scapy"⟩ : ScanEvent).old_network_address = none) :=
  (reconcile_old_address (fun _ => 0) "scapy" []
    [⟨some "AA:01", some "192.168.1.10", none, none, "scapy"⟩] 0
    ⟨"AA:01", EventType.connected, some "192.168.1.10", none, 0, none, "scapy"⟩
    (by decide)).1 (Or.inl rfl)

theorem strategy_fallback_witness :
    ((⟨"AA:01", EventType.connected, some "192.168.1.10", none, 0, none,
        "arp-scan"⟩ : ScanEvent).scan_method = "arp-scan") :=
  ((strategy_fallback (fun _ => 0) ⟨"scapy", ProbeOutcome.hardFail⟩
    ⟨"arp-scan", ProbeOutcome.success
      [⟨some "AA:01", some "192.168.1.10", none, none, "arp-scan"⟩]⟩
    [] [⟨some "AA:01", some "192.168.1.10", none, none, "arp-scan"⟩] [] 0
    rfl rfl).2.2
    ⟨"AA:01", EventType.connected, some "192.168.1.10", none, 0, none, "arp-scan"⟩
    (by decide)).1

theorem scanSession_lifecycle_witness :
    (createSession 1 "t0" none (some "scapy")).status = SessionStatus.running ∧
    ((completeSession (createSession 1 "t0" none (some "scapy")) "t1" 5 4 2).status =
        SessionStatus.completed ∨
      (completeSession (createSession 1 "t0" none (some "scapy")) "t1" 5 4 2).status =
        SessionStatus.failed) :=
  scanSession_lifecycle.2.2.1 (createSession 1 "t0" none (some "scapy"))
    (completeSession (createSession 1 "t0" none (some "scapy")) "t1" 5 4 2)
    (SessionStep.complete (createSession 1 "t0" none (some "scapy")) "t1" 5 4 2 rfl)

end LanMon
